import Mathlib

/-!
Verification of `download_nft_images.py`, a batch image downloader that
reads a JSON manifest (`collection.json`), derives one destination file per
entry from the entry identifier and an inferred extension, and fetches each
URL with bounded retries.

The development is a shallow embedding of the script:

* Python strings are `List Char` (`PyStr`); `str.split`, substring `in`,
  `urllib.parse.urlparse(...).path` and `os.path.splitext` are modelled as
  executable functions on character lists.
* JSON documents are the inductive `JValue`; `dict.get` with a default is
  `pyGet`, raising `AttributeError` on non-dict receivers exactly as Python
  does.
* The network and the filesystem are oracles: `net url attempt` yields the
  outcome of the `attempt`-th HTTP GET of `url` (a `requests` exception /
  non-2xx status, or a 2xx body), and `writeOk path` tells whether opening
  the destination for writing succeeds.  Side effects (GETs, sleeps, file
  writes) are recorded in an event trace.
* Uncaught Python exceptions are `Except.error`; the driver `mainRun`
  returns `.ok .earlyExit` for the summary-less early `return`, and
  `.ok (.done summary fs events)` for a completed run.
-/

/-- Python strings, modelled as lists of characters. -/
abbrev PyStr := List Char

/-- Character list of a Lean string literal. -/
def toL (s : String) : PyStr := s.toList

/-- Python's substring test `pat in s`. -/
def pyIn (pat s : PyStr) : Bool :=
  pat.isPrefixOf s ||
    match s with
    | [] => false
    | _ :: t => pyIn pat t

/-- Index of the first occurrence of `pat` in `s` (`s.find(pat)` when the
result is non-negative; `none` when Python would return `-1`). -/
def findSub (s pat : PyStr) : Option Nat :=
  if pat.isPrefixOf s then some 0
  else
    match s with
    | [] => none
    | _ :: t => (findSub t pat).map (· + 1)

/-- Worker for `pySplit` with explicit fuel: any `fuel ≥ s.length` gives
the untruncated result for a non-empty separator, since every cut removes
at least one character. -/
def pySplitF (pat : PyStr) : Nat → PyStr → List PyStr
  | 0, s => [s]
  | fuel + 1, s =>
    match findSub s pat with
    | none => [s]
    | some i => s.take i :: pySplitF pat fuel (s.drop (i + pat.length))

/-- Python `s.split(pat)` for a non-empty separator: cut at each leftmost
non-overlapping occurrence of `pat`.  (Python raises `ValueError` on an
empty separator; the script only splits on `"?ext="` and `"&"`.) -/
def pySplit (pat s : PyStr) : List PyStr :=
  if pat = [] then [s] else pySplitF pat s.length s

/-- The characters after the last `'/'` of a path (the whole path when it
has no `'/'`). -/
def lastSegment (p : PyStr) : PyStr :=
  (p.reverse.takeWhile (· ≠ '/')).reverse

/-- Index of the last `'.'` in a segment. -/
def lastDotIdx : PyStr → Option Nat
  | [] => none
  | c :: rest =>
    match lastDotIdx rest with
    | some d => some (d + 1)
    | none => if c = '.' then some 0 else none

/-- Models `os.path.splitext(p)[1]` for POSIX paths: the suffix of the last
`'/'`-segment starting at its last dot — except that when every character of
the segment before that dot is itself a dot (a leading-dots file name such
as `.hidden`), the extension is empty. -/
def splitextExt (p : PyStr) : PyStr :=
  let seg := lastSegment p
  match lastDotIdx seg with
  | none => []
  | some d => if (seg.take d).any (· ≠ '.') then seg.drop d else []

/-- Scheme characters accepted by `urllib.parse` (ASCII letters, digits,
`'+'`, `'-'`, `'.'`). -/
def isSchemeChar (c : Char) : Bool :=
  c.isAlphanum || c = '+' || c = '-' || c = '.'

/-- C0 control characters and space, stripped from the ends of a URL by
`urlsplit`. -/
def isC0orSpace (c : Char) : Bool := c.toNat ≤ 0x20

/-- The sanitisation `urlsplit` applies before parsing: strip *leading*
C0-control/space characters only (CPython deliberately preserves trailing
space), then remove every tab, CR and LF. -/
def urlSanitize (url : PyStr) : PyStr :=
  (url.dropWhile isC0orSpace).filter fun c => !(c = '\t' || c = '\r' || c = '\n')

/-- Split a leading `scheme:` from a URL as `urlsplit` does: the prefix
before the first `':'` is a scheme when it is non-empty, starts with an
ASCII letter and consists of scheme characters only.  Returns the
lower-cased scheme and the remainder. -/
def splitScheme (url : PyStr) : PyStr × PyStr :=
  match findSub url [':'] with
  | some i =>
    if 0 < i ∧ (url.headD ' ').isAlpha ∧ (url.take i).all isSchemeChar then
      ((url.take i).map Char.toLower, url.drop (i + 1))
    else ([], url)
  | none => ([], url)

/-- Hexadecimal digit test (`ipaddress._HEX_DIGITS`). -/
def isHexDigitC (c : Char) : Bool :=
  c.isDigit || ('a' ≤ c && c ≤ 'f') || ('A' ≤ c && c ≤ 'F')

/-- Decimal value of a digit string. -/
def decVal (s : PyStr) : Nat :=
  s.foldl (fun a c => a * 10 + (c.toNat - 48)) 0

/-- Models `ipaddress._BaseV4._parse_octet`: non-empty, ASCII decimal
digits only, at most 3 characters, no leading zeros, value at most 255. -/
def isValidIPv4Octet (s : PyStr) : Bool :=
  !s.isEmpty && s.all Char.isDigit && s.length ≤ 3 &&
    (s = ['0'] || s.headD ' ' != '0') && decVal s ≤ 255

/-- Models `ipaddress.IPv4Address(str)`: no `'/'`, non-empty, exactly four
valid dotted octets. -/
def isValidIPv4Addr (s : PyStr) : Bool :=
  !pyIn ['/'] s && !s.isEmpty &&
    (let octets := pySplit ['.'] s
     octets.length = 4 && octets.all isValidIPv4Octet)

/-- A part of a `':'`-split IPv6 literal as `_parse_hextet` accepts it:
hex digits only, at most four.  The empty parts marking a `'::'` are never
visited by the parser, so they are allowed here; `ipv6StructureOk` pins
where they may occur. -/
def isOkHextetPart (s : PyStr) : Bool :=
  s.isEmpty || (s.all isHexDigitC && s.length ≤ 4)

/-- The `'::'` structure rules of `ipaddress._BaseV6._ip_int_from_string`:
at most one empty interior part (the `'::'`); a leading or trailing `':'`
only as part of a leading or trailing `'::'`; without a `'::'` exactly 8
parts with non-empty endpoints; with one, at least one hextet skipped. -/
def ipv6StructureOk (parts : List PyStr) : Bool :=
  let n := parts.length
  let interior := (List.range n).filter fun i =>
    decide (0 < i) && decide (i + 1 < n) && (parts.getD i []).isEmpty
  match interior with
  | [] => decide (n = 8) && !(parts.getD 0 []).isEmpty && !(parts.getLastD []).isEmpty
  | [s] =>
    let hi : Option Nat :=
      if (parts.getD 0 []).isEmpty then (if s = 1 then some 0 else none) else some s
    let lo : Option Nat :=
      if (parts.getLastD []).isEmpty then (if s = n - 2 then some 0 else none)
      else some (n - s - 1)
    match hi, lo with
    | some h, some l => decide (h + l ≤ 7)
    | _, _ => false
  | _ => false

/-- Models `ipaddress._BaseV6._ip_int_from_string` as a validity test:
non-empty, at least 3 `':'`-parts, an optional IPv4-style suffix converted
to two hextets, at most 9 parts, all visited parts valid hextets, and the
`'::'` structure rules. -/
def isValidIPv6NoScope (s : PyStr) : Bool :=
  if s.isEmpty then false
  else
    let parts0 := pySplit [':'] s
    if parts0.length < 3 then false
    else
      let last := parts0.getLastD []
      let conv : Option (List PyStr) :=
        if pyIn ['.'] last then
          if isValidIPv4Addr last then some (parts0.dropLast ++ [['0'], ['0']]) else none
        else some parts0
      match conv with
      | none => false
      | some parts =>
        decide (parts.length ≤ 9) && parts.all isOkHextetPart && ipv6StructureOk parts

/-- Models `ipaddress.IPv6Address(str)`: no `'/'`, an optional non-empty
`'%scope'` suffix containing no further `'%'`, and a valid address body. -/
def isValidIPv6Addr (s : PyStr) : Bool :=
  !pyIn ['/'] s &&
    (match findSub s ['%'] with
     | none => isValidIPv6NoScope s
     | some i =>
       let scope := s.drop (i + 1)
       !scope.isEmpty && !pyIn ['%'] scope && isValidIPv6NoScope (s.take i))

/-- Models `urllib.parse._check_bracketed_host`: a host starting with
`'v'` must be an IPvFuture literal `v<hex>+.<nonempty>`; any other host
must be accepted by `ipaddress.ip_address` and not be an IPv4 address
(which `ip_address` tries first), i.e. must be a valid IPv6 literal. -/
def checkBracketedHost (hostname : PyStr) : Bool :=
  if hostname.headD ' ' = 'v' then
    match hostname with
    | 'v' :: rest =>
      !(rest.takeWhile isHexDigitC).isEmpty &&
        (match rest.dropWhile isHexDigitC with
         | '.' :: tail => !tail.isEmpty
         | _ => false)
    | _ => false
  else if isValidIPv4Addr hostname then false
  else isValidIPv6Addr hostname

/-- Drop a `//netloc` prefix as `urlsplit` does (`_splitnetloc`: the
netloc extends to the first `'/'`, `'?'` or `'#'`), raising its errors:
`ValueError("Invalid IPv6 URL")` when the netloc has an unbalanced
bracket, and the bracketed-host validation on the text between the first
`'['` and the following `']'` (one error message stands for CPython's
three).  The NFKC `_checknetloc` check, which can reject a netloc
containing certain non-ASCII characters, is not modelled: every URL in
this development is ASCII. -/
def splitNetlocE (url : PyStr) : Except String PyStr :=
  if ['/', '/'].isPrefixOf url then
    let netloc := (url.drop 2).takeWhile fun c => !(c = '/' || c = '?' || c = '#')
    let rest := (url.drop 2).dropWhile fun c => !(c = '/' || c = '?' || c = '#')
    if (pyIn ['['] netloc && !pyIn [']'] netloc) ||
        (pyIn [']'] netloc && !pyIn ['['] netloc) then
      .error "ValueError: Invalid IPv6 URL"
    else if pyIn ['['] netloc && pyIn [']'] netloc then
      if checkBracketedHost (((netloc.dropWhile (· ≠ '[')).drop 1).takeWhile (· ≠ ']')) then
        .ok rest
      else .error "ValueError: invalid bracketed host"
    else .ok rest
  else .ok url

/-- Schemes for which `urlparse` splits `;params` off the path
(`urllib.parse.uses_params`). -/
def usesParams : List PyStr :=
  [[], toL "ftp", toL "hdl", toL "prospero", toL "http", toL "imap",
   toL "https", toL "shttp", toL "rtsp", toL "rtspu", toL "sip",
   toL "sips", toL "mms", toL "sftp", toL "tel"]

/-- `urllib.parse._splitparams` restricted to the path it returns: cut the
path at the first `';'` of its last `'/'`-segment (at the first `';'` at all
when the path has no `'/'`). -/
def splitParamsPath (u : PyStr) : PyStr :=
  if pyIn ['/'] u then
    match findSub (lastSegment u) [';'] with
    | none => u
    | some j => u.take (u.length - (lastSegment u).length + j)
  else
    match findSub u [';'] with
    | none => u
    | some j => u.take j

/-- Models `urllib.parse.urlparse(url).path` with `urlsplit`'s error
behaviour: sanitise, strip `scheme:`, strip `//netloc` (raising
`ValueError` on a malformed bracketed netloc), drop the `#fragment` and
`?query`, and for schemes in `uses_params` split `;params` off the last
segment. -/
def pyUrlparsePath (url : PyStr) : Except String PyStr :=
  let u0 := urlSanitize url
  let sp := splitScheme u0
  match splitNetlocE sp.2 with
  | .error e => .error e
  | .ok u1 =>
    let u2 := (pySplit ['#'] u1).getD 0 []
    let u3 := (pySplit ['?'] u2).getD 0 []
    .ok (if sp.1 ∈ usesParams ∧ pyIn [';'] u3 then splitParamsPath u3 else u3)

/-- The literal `"?ext="` searched for by the script. -/
def extPat : PyStr := ['?', 'e', 'x', 't', '=']

/-- The literal `"&"` the ext value is cut at. -/
def ampPat : PyStr := ['&']

/-- Embedding of `get_file_extension_from_url` (lines 24–36):
`urlparse(url)` runs first, so its `ValueError`s (malformed bracketed
netloc) propagate before any inference; then, if `'?ext='` occurs in the
raw URL, the result is a dot followed by
`url.split('?ext=')[1].split('&')[0]`; otherwise the `os.path.splitext`
extension of the parsed path, defaulting to `".png"` when that is
empty. -/
def get_file_extension_from_url (url : PyStr) : Except String PyStr :=
  match pyUrlparsePath url with
  | .error e => .error e
  | .ok path =>
    .ok (if pyIn extPat url then
          '.' :: (pySplit ampPat ((pySplit extPat url).getD 1 [])).getD 0 []
        else
          let ext := splitextExt path
          if ext = [] then toL ".png" else ext)

/-- JSON values as parsed by `json.load`.  Numbers are modelled as integers
(the manifest fields the script touches are strings and objects; no claim
involves floating-point numbers).  Object fields are kept in parse order;
`dictGet` takes the last binding of a key, as Python's dict construction
from duplicate JSON keys does. -/
inductive JValue where
  | null : JValue
  | bool (b : Bool) : JValue
  | num (n : Int) : JValue
  | str (s : PyStr) : JValue
  | arr (xs : List JValue) : JValue
  | obj (fields : List (PyStr × JValue)) : JValue

/-- Python dict lookup: the last binding of `key` wins. -/
def dictGet (fields : List (PyStr × JValue)) (key : PyStr) : Option JValue :=
  match fields with
  | [] => none
  | (k, v) :: rest =>
    match dictGet rest key with
    | some r => some r
    | none => if k = key then some v else none

/-- Python truthiness (`bool(v)`) of a JSON value. -/
def pyTruthy : JValue → Bool
  | .null => false
  | .bool b => b
  | .num n => n != 0
  | .str s => !s.isEmpty
  | .arr xs => !xs.isEmpty
  | .obj fields => !fields.isEmpty

/-- `v.get(key, dflt)`: defaulting dict lookup, an uncaught
`AttributeError` when the receiver is not a dict. -/
def pyGet (v : JValue) (key : PyStr) (dflt : JValue) : Except String JValue :=
  match v with
  | .obj fields => .ok ((dictGet fields key).getD dflt)
  | _ => .error "AttributeError"

mutual

/-- Python `repr(v)` of a JSON value (escape sequences inside quoted
strings are not reproduced). -/
def pyRepr : JValue → PyStr
  | .null => toL "None"
  | .bool true => toL "True"
  | .bool false => toL "False"
  | .num n => toL (toString n)
  | .str s => Char.ofNat 39 :: s ++ [Char.ofNat 39]
  | .arr xs => '[' :: pyReprList xs ++ [']']
  | .obj fields => Char.ofNat 123 :: pyReprFields fields ++ [Char.ofNat 125]

/-- Comma-joined `repr`s of list elements. -/
def pyReprList : List JValue → PyStr
  | [] => []
  | [x] => pyRepr x
  | x :: xs => pyRepr x ++ toL ", " ++ pyReprList xs

/-- Comma-joined `'key': repr` pairs of dict items. -/
def pyReprFields : List (PyStr × JValue) → PyStr
  | [] => []
  | [(k, v)] => Char.ofNat 39 :: k ++ [Char.ofNat 39] ++ toL ": " ++ pyRepr v
  | (k, v) :: fs =>
    Char.ofNat 39 :: k ++ [Char.ofNat 39] ++ toL ": " ++ pyRepr v ++
      toL ", " ++ pyReprFields fs

end

/-- Python `str(v)` of a JSON value, as the f-string filename uses it: the
string itself for strings, `repr` for everything else. -/
def pyStr (v : JValue) : PyStr :=
  match v with
  | .str s => s
  | _ => pyRepr v

/-- First-occurrence-ordered distinct keys of a dict (what Python's
`enumerate` over a dict yields, as strings). -/
def objKeys (fields : List (PyStr × JValue)) : List PyStr :=
  (fields.map Prod.fst).eraseDups

/-- The value of `result.items` as an entry list.  A JSON array yields its
elements.  Python's `len`/iteration also accepts strings (characters) and
dicts (keys); `len` of anything else raises `TypeError` at
`total_count = len(items)`. -/
def toIterableItems : JValue → Except String (List JValue)
  | .arr xs => .ok xs
  | .str s => .ok (s.map fun c => .str [c])
  | .obj fields => .ok ((objKeys fields).map .str)
  | _ => .error "TypeError"

/-- Lines 89–90: `collection_data.get('result', {}).get('items', [])` and
its conversion to the iterated entry sequence. -/
def getItems (doc : JValue) : Except String (List JValue) :=
  match pyGet doc (toL "result") (.obj []) with
  | .error e => .error e
  | .ok result =>
    match pyGet result (toL "items") (.arr []) with
    | .error e => .error e
    | .ok itemsVal => toIterableItems itemsVal

/-- Outcome of one HTTP GET: `netFail` is any
`requests.exceptions.RequestException` (connection error, timeout, or
`raise_for_status` on a non-2xx status); `ok` is a 2xx response carrying
the body bytes. -/
inductive AttemptOutcome where
  | netFail : AttemptOutcome
  | ok (content : List Nat) : AttemptOutcome

/-- The network oracle: the outcome of the `attempt`-th GET of a URL. -/
abbrev Network := PyStr → Nat → AttemptOutcome

/-- The write oracle: whether opening `path` for writing succeeds. -/
abbrev WriteOk := PyStr → Bool

/-- Observable side effects of a run. -/
inductive Event where
  | get (url : PyStr) : Event
  | sleep (d : ℚ) : Event
  | write (path : PyStr) (content : List Nat) : Event
deriving DecidableEq

/-- Result of `download_image`: the returned boolean, the content written
to the destination (if any), and the trace of GETs, sleeps and writes. -/
structure FetchResult where
  success : Bool
  written : Option (List Nat)
  events : List Event
deriving DecidableEq

/-- The retry loop of `download_image` (lines 44–66): `remaining`
iterations of `for attempt in range(max_retries)` are left and the current
iteration has index `attempt`.  On a 2xx response the body is written and
`True` returned — unless the write fails, which raises an `OSError` that
the `except requests.exceptions.RequestException` clause does not catch.
On a network failure the loop sleeps 2 time-units and retries while
`attempt < max_retries - 1`, else returns `False`. -/
def download_image_go (net : Network) (writeOk : WriteOk) (url filepath : PyStr)
    (maxRetries : Nat) : Nat → Nat → Except String FetchResult
  | 0, _ => .ok ⟨false, none, []⟩
  | remaining + 1, attempt =>
    match net url attempt with
    | .ok content =>
      if writeOk filepath then
        .ok ⟨true, some content, [.get url, .write filepath content]⟩
      else
        .error "OSError"
    | .netFail =>
      if attempt < maxRetries - 1 then
        match download_image_go net writeOk url filepath maxRetries remaining (attempt + 1) with
        | .ok r => .ok ⟨r.success, r.written, .get url :: .sleep 2 :: r.events⟩
        | .error e => .error e
      else
        .ok ⟨false, none, [.get url]⟩

/-- Embedding of `download_image(url, filepath, max_retries)`. -/
def download_image (net : Network) (writeOk : WriteOk) (url filepath : PyStr)
    (maxRetries : Nat) : Except String FetchResult :=
  download_image_go net writeOk url filepath maxRetries maxRetries 0

/-- The filesystem: destination paths with their contents, in creation
order.  Lookup takes the first match; the run never writes a path twice. -/
def lookupFile : List (PyStr × List Nat) → PyStr → Option (List Nat)
  | [], _ => none
  | (q, c) :: rest, p => if q = p then some c else lookupFile rest p

/-- `os.path.join(a, b)` for POSIX paths (the two-argument case the script
uses). -/
def pyJoin (a b : PyStr) : PyStr :=
  if b.headD ' ' = '/' then b
  else if a = [] ∨ a.getLast? = some '/' then a ++ b
  else a ++ '/' :: b

/-- Driver state: the filesystem, the three counters of `main`, and the
accumulated event trace. -/
structure RunState where
  fs : List (PyStr × List Nat)
  successful : Nat
  failed : Nat
  skipped : Nat
  events : List Event

/-- Lines 102–116: extract `id`, `content.links.image` and
`content.metadata.name` from one entry (each `.get` raising
`AttributeError` on a non-dict receiver, in source order), signal a skip
when the identifier or URL is falsy, and otherwise derive the download
URL and the file name `str(mint) + file_ext`; a `ValueError` raised by
`urlparse` inside the extension inference propagates.  A truthy non-string
image URL would make `urlparse`/`in` raise; that is the `TypeError`
case. -/
def resolveItem (item : JValue) : Except String (Option (PyStr × PyStr)) := do
  let mint ← pyGet item (toL "id") (.str [])
  let content ← pyGet item (toL "content") (.obj [])
  let links ← pyGet content (toL "links") (.obj [])
  let imageUrl ← pyGet links (toL "image") (.str [])
  let meta ← pyGet content (toL "metadata") (.obj [])
  let _name ← pyGet meta (toL "name") (.str (toL "Unknown"))
  if !pyTruthy mint || !pyTruthy imageUrl then
    pure none
  else
    match imageUrl with
    | .str u =>
      match get_file_extension_from_url u with
      | .error e => .error e
      | .ok ext => pure (some (u, pyStr mint ++ ext))
    | _ => .error "TypeError"

/-- One iteration of the driver loop (lines 101–133): skip on a missing
field; count an existing destination as successful with no fetch;
otherwise call `download_image` (crediting `successful` or `failed`),
record any written file, and sleep 0.5 time-units.  Note the two `continue`
statements reach neither the download nor the sleep. -/
def processItem (dir : PyStr) (net : Network) (writeOk : WriteOk)
    (st : RunState) (item : JValue) : Except String RunState :=
  match resolveItem item with
  | .error e => .error e
  | .ok none => .ok { st with skipped := st.skipped + 1 }
  | .ok (some (url, filename)) =>
    let filepath := pyJoin dir filename
    if (lookupFile st.fs filepath).isSome then
      .ok { st with successful := st.successful + 1 }
    else
      match download_image net writeOk url filepath 3 with
      | .error e => .error e
      | .ok r =>
        .ok { st with
              fs := match r.written with
                    | some c => st.fs ++ [(filepath, c)]
                    | none => st.fs,
              successful := st.successful + (if r.success then 1 else 0),
              failed := st.failed + (if r.success then 0 else 1),
              events := st.events ++ r.events ++ [.sleep (1 / 2)] }

/-- The driver loop over all entries. -/
def processAll (dir : PyStr) (net : Network) (writeOk : WriteOk) :
    RunState → List JValue → Except String RunState
  | st, [] => .ok st
  | st, item :: rest =>
    match processItem dir net writeOk st item with
    | .error e => .error e
    | .ok st' => processAll dir net writeOk st' rest

/-- The final tally printed by `main` (lines 136–141). -/
structure Summary where
  successful : Nat
  failed : Nat
  skipped : Nat
  total : Nat
deriving DecidableEq

/-- How a run of `main` ends: the summary-less early `return` of line 86,
or a completed run with its summary, final filesystem and event trace. -/
inductive RunResult where
  | earlyExit : RunResult
  | done (s : Summary) (fs : List (PyStr × List Nat)) (events : List Event) : RunResult

/-- The fixed output directory of `main`. -/
def downloadDir : PyStr := toL "nft_images"

/-- Embedding of `main` (lines 68–148).  `docOpt = none` is a load/parse
failure (`load_collection_data` returned `None`); a falsy parsed document
also takes the early `return`.  An `Except.error` is an uncaught Python
exception aborting the run. -/
def mainRun (fs0 : List (PyStr × List Nat)) (net : Network) (writeOk : WriteOk)
    (docOpt : Option JValue) : Except String RunResult :=
  match docOpt with
  | none => .ok .earlyExit
  | some doc =>
    if !pyTruthy doc then .ok .earlyExit
    else
      match getItems doc with
      | .error e => .error e
      | .ok items =>
        match processAll downloadDir net writeOk ⟨fs0, 0, 0, 0, []⟩ items with
        | .error e => .error e
        | .ok st => .ok (.done ⟨st.successful, st.failed, st.skipped, items.length⟩ st.fs st.events)

/-- An entry of the documented manifest shape
`{id, content: {links: {image}, metadata: {name}}}`. -/
def mkEntry (id url name : PyStr) : JValue :=
  .obj [(toL "id", .str id),
        (toL "content",
          .obj [(toL "links", .obj [(toL "image", .str url)]),
                (toL "metadata", .obj [(toL "name", .str name)])])]

/-- A manifest document whose `result.items` is the given entry list. -/
def mkManifest (items : List JValue) : JValue :=
  .obj [(toL "result", .obj [(toL "items", .arr items)])]

/-- Number of HTTP GET attempts in a trace. -/
def countGets (evs : List Event) : Nat :=
  evs.countP fun e => match e with | .get _ => true | _ => false

/-- Number of sleeps in a trace. -/
def countSleeps (evs : List Event) : Nat :=
  evs.countP fun e => match e with | .sleep _ => true | _ => false

/-- Number of file writes in a trace. -/
def countWrites (evs : List Event) : Nat :=
  evs.countP fun e => match e with | .write _ _ => true | _ => false

/-- A server that fails every attempt of every URL. -/
def netAllFail : Network := fun _ _ => .netFail

/-- A server that answers every attempt of every URL with body `[7]`. -/
def netAllOk7 : Network := fun _ _ => .ok [7]

/-- A filesystem on which every write succeeds. -/
def wTrue : WriteOk := fun _ => true

/-- A filesystem on which every write fails. -/
def wFalse : WriteOk := fun _ => false

/-- The example URL of the concrete runs below. -/
def urlA : PyStr := toL "https://x.com/a.png"

/-- A one-entry manifest with a well-formed entry. -/
def doc1 : JValue := mkManifest [mkEntry (toL "Mint1") urlA (toL "A")]

/-- An entry with no `id` field (the driver skips it). -/
def entryNoId : JValue :=
  .obj [(toL "content",
          .obj [(toL "links", .obj [(toL "image", .str urlA)]),
                (toL "metadata", .obj [(toL "name", .str (toL "A"))])])]

/-- A one-entry manifest whose entry has no `id` field. -/
def docSkip : JValue := mkManifest [entryNoId]

/-- The trace of one entry whose three download attempts all fail. -/
def evFail1 : List Event :=
  [.get urlA, .sleep 2, .get urlA, .sleep 2, .get urlA, .sleep (1 / 2)]

/-- One step of the retry loop. -/
theorem download_go_succ (net : Network) (w : WriteOk) (url filepath : PyStr)
    (maxRetries rem attempt : Nat) :
    download_image_go net w url filepath maxRetries (rem + 1) attempt =
      match net url attempt with
      | .ok content =>
        if w filepath then
          .ok ⟨true, some content, [.get url, .write filepath content]⟩
        else .error "OSError"
      | .netFail =>
        if attempt < maxRetries - 1 then
          match download_image_go net w url filepath maxRetries rem (attempt + 1) with
          | .ok r => .ok ⟨r.success, r.written, .get url :: .sleep 2 :: r.events⟩
          | .error e => .error e
        else .ok ⟨false, none, [.get url]⟩ := rfl

/-- With a server that always fails a URL, the retry loop performs one GET
per remaining iteration, sleeps 2 time-units between consecutive attempts,
writes nothing and returns `False`. -/
theorem download_go_all_fail (net : Network) (w : WriteOk) (url filepath : PyStr)
    (maxRetries : Nat) (hnet : ∀ a, net url a = .netFail) :
    ∀ remaining attempt, attempt + remaining = maxRetries →
      ∃ evs, download_image_go net w url filepath maxRetries remaining attempt =
          .ok ⟨false, none, evs⟩ ∧
        countGets evs = remaining ∧ countSleeps evs = remaining - 1 ∧
        countWrites evs = 0 ∧ ∀ e ∈ evs, e = .get url ∨ e = .sleep 2 := by
  intro remaining
  induction remaining with
  | zero =>
    intro attempt _
    exact ⟨[], rfl, rfl, rfl, rfl, by simp⟩
  | succ rem ih =>
    intro attempt hsum
    rw [download_go_succ]
    simp only [hnet attempt]
    cases rem with
    | zero =>
      have hguard : ¬ attempt < maxRetries - 1 := by omega
      rw [if_neg hguard]
      refine ⟨[.get url], rfl, rfl, rfl, rfl, ?_⟩
      intro e he
      simp only [List.mem_cons, List.not_mem_nil, or_false] at he
      exact Or.inl he
    | succ rem' =>
      have hguard : attempt < maxRetries - 1 := by omega
      rw [if_pos hguard]
      obtain ⟨evs', hgo, hg, hs, hw, hall⟩ := ih (attempt + 1) (by omega)
      rw [hgo]
      refine ⟨.get url :: .sleep 2 :: evs', rfl, ?_, ?_, ?_, ?_⟩
      · simp only [countGets, List.countP_cons] at hg ⊢
        simp [hg]
      · simp only [countSleeps, List.countP_cons] at hs ⊢
        simp only [hs]
        simp
      · simp only [countWrites, List.countP_cons] at hw ⊢
        simp [hw]
      · intro e he
        simp only [List.mem_cons] at he
        rcases he with rfl | rfl | he
        · exact Or.inl rfl
        · exact Or.inr rfl
        · exact hall e he

/-- `download_image` returns `True` exactly when it wrote the response
body. -/
theorem download_go_written (net : Network) (w : WriteOk) (url filepath : PyStr)
    (maxRetries : Nat) :
    ∀ remaining attempt r,
      download_image_go net w url filepath maxRetries remaining attempt = .ok r →
      (r.written = none ↔ r.success = false) := by
  intro remaining
  induction remaining with
  | zero =>
    intro attempt r h
    cases h
    simp
  | succ rem ih =>
    intro attempt r h
    rw [download_go_succ] at h
    cases hn : net url attempt with
    | ok content =>
      simp only [hn] at h
      by_cases hw : w filepath = true
      · rw [if_pos hw] at h
        cases h
        simp
      · rw [if_neg hw] at h
        cases h
    | netFail =>
      simp only [hn] at h
      by_cases hguard : attempt < maxRetries - 1
      · rw [if_pos hguard] at h
        cases hrec : download_image_go net w url filepath maxRetries rem (attempt + 1) with
        | error e => rw [hrec] at h; cases h
        | ok r' =>
          rw [hrec] at h
          cases h
          exact ih (attempt + 1) r' hrec
      · rw [if_neg hguard] at h
        cases h
        simp

/-- Whenever the retry loop runs at least one iteration and returns, its
trace starts with a GET of the URL. -/
theorem download_go_events_head (net : Network) (w : WriteOk) (url filepath : PyStr)
    (maxRetries rem attempt : Nat) (r : FetchResult)
    (h : download_image_go net w url filepath maxRetries (rem + 1) attempt = .ok r) :
    ∃ tail, r.events = .get url :: tail := by
  rw [download_go_succ] at h
  cases hn : net url attempt with
  | ok content =>
    simp only [hn] at h
    by_cases hw : w filepath = true
    · rw [if_pos hw] at h
      cases h
      exact ⟨_, rfl⟩
    · rw [if_neg hw] at h
      cases h
  | netFail =>
    simp only [hn] at h
    by_cases hguard : attempt < maxRetries - 1
    · rw [if_pos hguard] at h
      cases hrec : download_image_go net w url filepath maxRetries rem (attempt + 1) with
      | error e => rw [hrec] at h; cases h
      | ok r' =>
        rw [hrec] at h
        cases h
        exact ⟨_, rfl⟩
    · rw [if_neg hguard] at h
      cases h
      exact ⟨_, rfl⟩

/-- A file found before an append is found with the same content after
it. -/
theorem lookupFile_append_left (fs l : List (PyStr × List Nat)) (p : PyStr)
    (h : (lookupFile fs p).isSome) :
    lookupFile (fs ++ l) p = lookupFile fs p := by
  induction fs with
  | nil => simp [lookupFile] at h
  | cons x rest ih =>
    obtain ⟨q, c⟩ := x
    by_cases hq : q = p
    · simp [lookupFile, hq]
    · simp only [lookupFile, hq, if_false, List.cons_append] at h ⊢
      exact ih h

/-- Appending a fresh file makes it found. -/
theorem lookupFile_append_self (fs : List (PyStr × List Nat)) (p : PyStr) (c : List Nat)
    (h : lookupFile fs p = none) :
    lookupFile (fs ++ [(p, c)]) p = some c := by
  induction fs with
  | nil => simp [lookupFile]
  | cons x rest ih =>
    obtain ⟨q, d⟩ := x
    by_cases hq : q = p
    · simp [lookupFile, hq] at h
    · simp only [lookupFile, hq, if_false, List.cons_append] at h ⊢
      exact ih h

/-- One step of the driver loop. -/
theorem processAll_cons (dir : PyStr) (net : Network) (w : WriteOk)
    (st : RunState) (item : JValue) (rest : List JValue) :
    processAll dir net w st (item :: rest) =
      match processItem dir net w st item with
      | .error e => .error e
      | .ok st' => processAll dir net w st' rest := rfl

/-- The four ways one entry can be processed without raising: skipped,
satisfied by an existing file, or downloaded (the last case records the
download result). -/
theorem processItem_cases (dir : PyStr) (net : Network) (w : WriteOk)
    (st : RunState) (item : JValue) (st' : RunState)
    (h : processItem dir net w st item = .ok st') :
    (resolveItem item = .ok none ∧ st' = { st with skipped := st.skipped + 1 }) ∨
    (∃ url fn, resolveItem item = .ok (some (url, fn)) ∧
      (lookupFile st.fs (pyJoin dir fn)).isSome = true ∧
      st' = { st with successful := st.successful + 1 }) ∨
    (∃ url fn r, resolveItem item = .ok (some (url, fn)) ∧
      lookupFile st.fs (pyJoin dir fn) = none ∧
      download_image net w url (pyJoin dir fn) 3 = .ok r ∧
      st' = { st with
              fs := match r.written with
                    | some c => st.fs ++ [(pyJoin dir fn, c)]
                    | none => st.fs,
              successful := st.successful + (if r.success then 1 else 0),
              failed := st.failed + (if r.success then 0 else 1),
              events := st.events ++ r.events ++ [.sleep (1 / 2)] }) := by
  unfold processItem at h
  cases hres : resolveItem item with
  | error e => rw [hres] at h; cases h
  | ok v =>
    rw [hres] at h
    cases v with
    | none =>
      cases h
      exact Or.inl ⟨rfl, rfl⟩
    | some p =>
      obtain ⟨url, fn⟩ := p
      dsimp only at h
      by_cases hex : (lookupFile st.fs (pyJoin dir fn)).isSome = true
      · rw [if_pos hex] at h
        cases h
        exact Or.inr (Or.inl ⟨url, fn, rfl, hex, rfl⟩)
      · rw [if_neg hex] at h
        cases hdl : download_image net w url (pyJoin dir fn) 3 with
        | error e => rw [hdl] at h; cases h
        | ok r =>
          rw [hdl] at h
          cases h
          exact Or.inr (Or.inr ⟨url, fn, r, rfl,
            Option.not_isSome_iff_eq_none.mp hex, hdl, rfl⟩)

/-- Every successfully processed entry bumps exactly one counter. -/
theorem processItem_count (dir : PyStr) (net : Network) (w : WriteOk)
    (st : RunState) (item : JValue) (st' : RunState)
    (h : processItem dir net w st item = .ok st') :
    st'.successful + st'.failed + st'.skipped =
      st.successful + st.failed + st.skipped + 1 := by
  rcases processItem_cases dir net w st item st' h with
    ⟨_, rfl⟩ | ⟨url, fn, _, _, rfl⟩ | ⟨url, fn, r, _, _, _, rfl⟩
  · dsimp only
    omega
  · dsimp only
    omega
  · dsimp only
    cases r.success <;> simp <;> omega

/-- Processing an entry never decreases the failed counter. -/
theorem processItem_failed_mono (dir : PyStr) (net : Network) (w : WriteOk)
    (st : RunState) (item : JValue) (st' : RunState)
    (h : processItem dir net w st item = .ok st') :
    st.failed ≤ st'.failed := by
  rcases processItem_cases dir net w st item st' h with
    ⟨_, rfl⟩ | ⟨url, fn, _, _, rfl⟩ | ⟨url, fn, r, _, _, _, rfl⟩
  · exact Nat.le_refl _
  · exact Nat.le_refl _
  · dsimp only
    cases r.success <;> simp

/-- A file present before an entry is processed is present, unchanged,
afterwards. -/
theorem processItem_fs_mono (dir : PyStr) (net : Network) (w : WriteOk)
    (st : RunState) (item : JValue) (st' : RunState)
    (h : processItem dir net w st item = .ok st') (p : PyStr)
    (hp : (lookupFile st.fs p).isSome = true) :
    (lookupFile st'.fs p).isSome = true := by
  rcases processItem_cases dir net w st item st' h with
    ⟨_, rfl⟩ | ⟨url, fn, _, _, rfl⟩ | ⟨url, fn, r, _, _, _, rfl⟩
  · exact hp
  · exact hp
  · dsimp only
    cases r.written with
    | none => exact hp
    | some c =>
      dsimp only
      rw [lookupFile_append_left st.fs _ p hp]
      exact hp

/-- Counter reconciliation along the loop: the counters gain exactly the
number of entries processed. -/
theorem processAll_count (dir : PyStr) (net : Network) (w : WriteOk) :
    ∀ items (st st' : RunState), processAll dir net w st items = .ok st' →
      st'.successful + st'.failed + st'.skipped =
        st.successful + st.failed + st.skipped + items.length := by
  intro items
  induction items with
  | nil =>
    intro st st' h
    cases h
    simp
  | cons item rest ih =>
    intro st st' h
    rw [processAll_cons] at h
    cases hpi : processItem dir net w st item with
    | error e => rw [hpi] at h; cases h
    | ok st1 =>
      rw [hpi] at h
      have h1 := processItem_count dir net w st item st1 hpi
      have h2 := ih st1 st' h
      simp only [List.length_cons]
      omega

/-- The failed counter never decreases along the loop. -/
theorem processAll_failed_mono (dir : PyStr) (net : Network) (w : WriteOk) :
    ∀ items (st st' : RunState), processAll dir net w st items = .ok st' →
      st.failed ≤ st'.failed := by
  intro items
  induction items with
  | nil =>
    intro st st' h
    cases h
    exact Nat.le_refl _
  | cons item rest ih =>
    intro st st' h
    rw [processAll_cons] at h
    cases hpi : processItem dir net w st item with
    | error e => rw [hpi] at h; cases h
    | ok st1 =>
      rw [hpi] at h
      exact Nat.le_trans (processItem_failed_mono dir net w st item st1 hpi) (ih st1 st' h)

/-- A file present before the loop is still present after it. -/
theorem processAll_fs_mono (dir : PyStr) (net : Network) (w : WriteOk) :
    ∀ items (st st' : RunState), processAll dir net w st items = .ok st' →
      ∀ p, (lookupFile st.fs p).isSome = true → (lookupFile st'.fs p).isSome = true := by
  intro items
  induction items with
  | nil =>
    intro st st' h p hp
    cases h
    exact hp
  | cons item rest ih =>
    intro st st' h p hp
    rw [processAll_cons] at h
    cases hpi : processItem dir net w st item with
    | error e => rw [hpi] at h; cases h
    | ok st1 =>
      rw [hpi] at h
      exact ih st1 st' h p (processItem_fs_mono dir net w st item st1 hpi p hp)

/-- Unfolding `mainRun` on a parsed document. -/
theorem mainRun_some (fs0 : List (PyStr × List Nat)) (net : Network) (w : WriteOk)
    (doc : JValue) :
    mainRun fs0 net w (some doc) =
      if !pyTruthy doc then .ok .earlyExit
      else
        match getItems doc with
        | .error e => .error e
        | .ok items =>
          match processAll downloadDir net w ⟨fs0, 0, 0, 0, []⟩ items with
          | .error e => .error e
          | .ok st =>
            .ok (.done ⟨st.successful, st.failed, st.skipped, items.length⟩ st.fs st.events) := rfl

/-- A well-formed entry with a non-empty identifier and a URL the
extension inference accepts resolves to its download target. -/
theorem resolveItem_mkEntry (id url name ext : PyStr) (hid : id ≠ []) (hurl : url ≠ [])
    (hext : get_file_extension_from_url url = .ok ext) :
    resolveItem (mkEntry id url name) = .ok (some (url, id ++ ext)) := by
  have h1 : pyTruthy (.str id) = true := by
    cases id with
    | nil => exact absurd rfl hid
    | cons c t => rfl
  have h2 : pyTruthy (.str url) = true := by
    cases url with
    | nil => exact absurd rfl hurl
    | cons c t => rfl
  have hstep : resolveItem (mkEntry id url name) =
      if !pyTruthy (.str id) || !pyTruthy (.str url) then pure none
      else
        match get_file_extension_from_url url with
        | .error e => .error e
        | .ok ext => pure (some (url, pyStr (.str id) ++ ext)) := rfl
  rw [hstep, h1, h2, hext]
  rfl

/-- Claim C1 (confirmed): whenever a run completes and prints its summary,
`successful + failed + skipped` equals the number of manifest entries —
every entry increments exactly one of the three counters. -/
theorem C1_counts_reconcile (fs0 : List (PyStr × List Nat)) (net : Network) (w : WriteOk)
    (docOpt : Option JValue) (s : Summary) (fs : List (PyStr × List Nat)) (ev : List Event)
    (h : mainRun fs0 net w docOpt = .ok (.done s fs ev)) :
    s.successful + s.failed + s.skipped = s.total := by
  cases docOpt with
  | none => simp [mainRun] at h
  | some doc =>
    rw [mainRun_some] at h
    cases htru : pyTruthy doc with
    | false =>
      rw [htru] at h
      simp at h
    | true =>
      rw [htru] at h
      simp only [Bool.not_true, Bool.false_eq_true, if_false] at h
      cases hgi : getItems doc with
      | error e => rw [hgi] at h; cases h
      | ok items =>
        rw [hgi] at h
        dsimp only at h
        cases hpa : processAll downloadDir net w ⟨fs0, 0, 0, 0, []⟩ items with
        | error e => rw [hpa] at h; cases h
        | ok st =>
          rw [hpa] at h
          cases h
          have hc := processAll_count downloadDir net w items ⟨fs0, 0, 0, 0, []⟩ st hpa
          dsimp only at hc ⊢
          omega

/-- Witness for C1: the run of `doc1` against an always-failing server ends
with counters 0/1/0 over 1 entry, and they reconcile. -/
theorem C1_witness :
    (0 : Nat) + 1 + 0 = 1 :=
  C1_counts_reconcile [] netAllFail wTrue (some doc1) ⟨0, 1, 0, 1⟩ [] evFail1 rfl

/-- Claim C3 (confirmed): a URL that fails on every attempt is fetched
exactly `maxRetries` times with 2-time-unit sleeps between consecutive
attempts, the fetcher reports failure, and nothing is written. -/
theorem C3_retry_bound (net : Network) (w : WriteOk) (url filepath : PyStr)
    (maxRetries : Nat) (hnet : ∀ a, net url a = .netFail) :
    ∃ evs, download_image net w url filepath maxRetries = .ok ⟨false, none, evs⟩ ∧
      countGets evs = maxRetries ∧ countSleeps evs = maxRetries - 1 ∧
      countWrites evs = 0 ∧ ∀ e ∈ evs, e = .get url ∨ e = .sleep 2 :=
  download_go_all_fail net w url filepath maxRetries hnet maxRetries 0 (by omega)

/-- Witness for C3 at the default retry count 3. -/
theorem C3_witness :
    ∃ evs, download_image netAllFail wTrue urlA (toL "nft_images/Mint1.png") 3 =
        .ok ⟨false, none, evs⟩ ∧
      countGets evs = 3 ∧ countSleeps evs = 3 - 1 ∧ countWrites evs = 0 ∧
      ∀ e ∈ evs, e = .get urlA ∨ e = .sleep 2 :=
  C3_retry_bound netAllFail wTrue urlA (toL "nft_images/Mint1.png") 3 (fun _ => rfl)

/-- Claim C4 (confirmed): when the destination file of an entry already
exists, the driver counts the entry successful and performs no network
call, no sleep and no filesystem change (the returned state differs from
the input state only in the successful counter). -/
theorem C4_existing_file_shortcut (dir : PyStr) (net : Network) (w : WriteOk)
    (st : RunState) (id url name ext : PyStr) (hid : id ≠ []) (hurl : url ≠ [])
    (hext : get_file_extension_from_url url = .ok ext)
    (hex : (lookupFile st.fs (pyJoin dir (id ++ ext))).isSome = true) :
    processItem dir net w st (mkEntry id url name) =
      .ok { st with successful := st.successful + 1 } := by
  unfold processItem
  rw [resolveItem_mkEntry id url name ext hid hurl hext]
  dsimp only
  rw [if_pos hex]

/-- Witness for C4: `nft_images/Mint1.png` already holds 1 byte, and the
entry for `Mint1` is counted successful without any event. -/
theorem C4_witness :
    processItem downloadDir netAllFail wTrue ⟨[(toL "nft_images/Mint1.png", [9])], 0, 0, 0, []⟩
        (mkEntry (toL "Mint1") urlA (toL "A")) =
      .ok ⟨[(toL "nft_images/Mint1.png", [9])], 1, 0, 0, []⟩ :=
  C4_existing_file_shortcut downloadDir netAllFail wTrue
    ⟨[(toL "nft_images/Mint1.png", [9])], 0, 0, 0, []⟩
    (toL "Mint1") urlA (toL "A") (toL ".png") (by decide) (by decide) rfl (by decide)

/-- Claim C5, counterexample: the document `{}` loads and parses, its
`result.items` path is absent, yet the run takes the summary-less early
`return` (the claim promises a completed run with a total-0 summary). -/
theorem C5_counterexample :
    mainRun [] netAllFail wTrue (some (.obj [])) = .ok .earlyExit := rfl

/-- Claim C5 (amended): for every manifest parsing to a truthy dict in
which `result` is absent, or maps to a dict without `items`, the entry
sequence is empty and the run completes with a total-0 summary. -/
theorem C5_missing_items_empty (fs0 : List (PyStr × List Nat)) (net : Network)
    (w : WriteOk) (fields : List (PyStr × JValue))
    (htr : pyTruthy (.obj fields) = true)
    (hres : dictGet fields (toL "result") = none ∨
      ∃ f2, dictGet fields (toL "result") = some (.obj f2) ∧
        dictGet f2 (toL "items") = none) :
    mainRun fs0 net w (some (.obj fields)) = .ok (.done ⟨0, 0, 0, 0⟩ fs0 []) := by
  have hitems : getItems (.obj fields) = .ok [] := by
    rcases hres with hnone | ⟨f2, hsome, hnone2⟩
    · have h1 : pyGet (.obj fields) (toL "result") (.obj []) = .ok (.obj []) := by
        simp [pyGet, hnone]
      unfold getItems
      rw [h1]
      rfl
    · have h1 : pyGet (.obj fields) (toL "result") (.obj []) = .ok (.obj f2) := by
        simp [pyGet, hsome]
      have h2 : pyGet (.obj f2) (toL "items") (.arr []) = .ok (.arr []) := by
        simp [pyGet, hnone2]
      unfold getItems
      rw [h1]
      dsimp only
      rw [h2]
      rfl
  rw [mainRun_some, htr]
  simp only [Bool.not_true, Bool.false_eq_true, if_false, hitems]
  rfl

/-- Witness for C5 (amended): a truthy one-field document without
`result`. -/
theorem C5_witness :
    mainRun [] netAllFail wTrue (some (.obj [(toL "x", JValue.null)])) =
      .ok (.done ⟨0, 0, 0, 0⟩ [] []) :=
  C5_missing_items_empty [] netAllFail wTrue [(toL "x", JValue.null)] rfl (Or.inl rfl)

/-- Claim C6, counterexample: a failure writing the output file is not a
`requests` exception, so it propagates and aborts the whole run (the claim
promises the entry would be counted failed and the run continue). -/
theorem C6_counterexample :
    mainRun [] netAllOk7 wFalse (some doc1) = .error "OSError" := rfl

/-- Claim C6 (amended): a network failure (connection error, timeout,
non-success status) on every attempt never aborts the run — the entry is
counted failed and processing continues with the remaining entries. -/
theorem C6_network_failures_recovered (dir : PyStr) (net : Network) (w : WriteOk)
    (st : RunState) (item : JValue) (rest : List JValue) (url fn : PyStr)
    (hres : resolveItem item = .ok (some (url, fn)))
    (hnone : lookupFile st.fs (pyJoin dir fn) = none)
    (hnet : ∀ a, net url a = .netFail) :
    ∃ evs, processAll dir net w st (item :: rest) =
      processAll dir net w
        { st with failed := st.failed + 1, events := st.events ++ evs } rest := by
  obtain ⟨evs3, hgo, -, -, -, -⟩ :=
    download_go_all_fail net w url (pyJoin dir fn) 3 hnet 3 0 rfl
  refine ⟨evs3 ++ [.sleep (1 / 2)], ?_⟩
  rw [processAll_cons]
  have hpi : processItem dir net w st item =
      .ok { st with failed := st.failed + 1,
                    events := st.events ++ (evs3 ++ [.sleep (1 / 2)]) } := by
    unfold processItem
    rw [hres]
    dsimp only
    rw [if_neg (by simp [hnone])]
    rw [show download_image net w url (pyJoin dir fn) 3 = .ok ⟨false, none, evs3⟩ from hgo]
    dsimp only
    simp [List.append_assoc]
  rw [hpi]

/-- Witness for C6 (amended): the single `Mint1` entry against an
always-failing server is counted failed and the (empty) remainder is then
processed. -/
theorem C6_witness :
    ∃ evs, processAll downloadDir netAllFail wTrue ⟨[], 0, 0, 0, []⟩
        [mkEntry (toL "Mint1") urlA (toL "A")] =
      processAll downloadDir netAllFail wTrue ⟨[], 0, 1, 0, evs⟩ [] :=
  C6_network_failures_recovered downloadDir netAllFail wTrue ⟨[], 0, 0, 0, []⟩
    (mkEntry (toL "Mint1") urlA (toL "A")) [] urlA (toL "Mint1.png")
    rfl rfl (fun _ => rfl)

/-- Claim C7, counterexample: the skipped entry of `docSkip` produces an
empty event trace — in particular no 0.5-time-unit sleep follows it (the
claim promises a sleep after every entry, fetched or skipped). -/
theorem C7_counterexample :
    mainRun [] netAllFail wTrue (some docSkip) = .ok (.done ⟨0, 0, 1, 1⟩ [] []) := rfl

/-- Claim C7 (amended): the driver sleeps 0.5 time-units after an entry
exactly when it attempted a download for it; entries that are skipped, or
satisfied by an existing file, add no events at all. -/
theorem C7_sleep_only_after_download (dir : PyStr) (net : Network) (w : WriteOk)
    (st : RunState) (item : JValue) (st' : RunState)
    (h : processItem dir net w st item = .ok st') :
    (st'.events = st.events ∨
      ∃ url evs, st'.events = st.events ++ (Event.get url :: evs) ++ [Event.sleep (1 / 2)]) ∧
    (st'.skipped ≠ st.skipped → st'.events = st.events) ∧
    (st'.fs = st.fs ∧ st'.successful ≠ st.successful → st'.events = st.events) := by
  rcases processItem_cases dir net w st item st' h with
    ⟨_, rfl⟩ | ⟨url, fn, _, _, rfl⟩ | ⟨url, fn, r, _, _, hdl, rfl⟩
  · exact ⟨Or.inl rfl, fun _ => rfl, fun _ => rfl⟩
  · exact ⟨Or.inl rfl, fun _ => rfl, fun _ => rfl⟩
  · refine ⟨?_, ?_, ?_⟩
    · obtain ⟨tail, htail⟩ := download_go_events_head net w url (pyJoin dir fn) 3 2 0 r hdl
      refine Or.inr ⟨url, tail, ?_⟩
      dsimp only
      rw [htail]
    · intro hsk
      exact absurd rfl hsk
    · rintro ⟨hfs, hsucc⟩
      cases hs : r.success with
      | false =>
        refine absurd ?_ hsucc
        dsimp only
        rw [hs]
        simp
      | true =>
        have hw := download_go_written net w url (pyJoin dir fn) 3 3 0 r hdl
        cases hwr : r.written with
        | none =>
          rw [hwr, hs] at hw
          simp at hw
        | some c =>
          dsimp only at hfs
          rw [hwr] at hfs
          dsimp only at hfs
          have hlen := congrArg List.length hfs
          simp at hlen

/-- Witness for C7 (amended), at the skipped entry `entryNoId`: its events
are unchanged (no sleep). -/
theorem C7_witness :
    (([] : List Event) = [] ∨
      ∃ url evs, ([] : List Event) = [] ++ (Event.get url :: evs) ++ [Event.sleep (1 / 2)]) ∧
    ((1 : Nat) ≠ 0 → ([] : List Event) = []) ∧
    (([] : List (PyStr × List Nat)) = [] ∧ (0 : Nat) ≠ 0 → ([] : List Event) = []) :=
  C7_sleep_only_after_download downloadDir netAllFail wTrue ⟨[], 0, 0, 0, []⟩ entryNoId
    ⟨[], 0, 0, 1, []⟩ rfl

/-- Claim C10 (confirmed): a truthy parsed document that is not a dict
makes `collection_data.get('result', {})` raise `AttributeError`; the run
aborts with an unhandled error and no summary. -/
theorem C10_nondict_document_crashes (fs0 : List (PyStr × List Nat)) (net : Network)
    (w : WriteOk) (doc : JValue) (htr : pyTruthy doc = true)
    (hobj : ∀ fields, doc ≠ .obj fields) :
    mainRun fs0 net w (some doc) = .error "AttributeError" := by
  have hgi : getItems doc = .error "AttributeError" := by
    cases doc with
    | obj fields => exact absurd rfl (hobj fields)
    | null => rfl
    | bool b => rfl
    | num n => rfl
    | str s => rfl
    | arr xs => rfl
  rw [mainRun_some, htr]
  simp only [Bool.not_true, Bool.false_eq_true, if_false, hgi]

/-- Witness for C10: the truthy non-dict document `[null]`. -/
theorem C10_witness :
    mainRun [] netAllFail wTrue (some (.arr [.null])) = .error "AttributeError" :=
  C10_nondict_document_crashes [] netAllFail wTrue (.arr [.null]) rfl
    (fun _ h => JValue.noConfusion h)

/-- Parallel-run lemma: when a pass over `items` from `stA` completes with
no new failures, a second pass over the same items — against any network
and write oracle — starting from a state whose filesystem finds every file
the first pass's final filesystem finds, resolves every entry by the skip
or existing-file path: it adds no events, leaves its filesystem unchanged,
adds no failures, and gains exactly the successful/skipped increments of
the first pass. -/
theorem processAll_second_run (dir : PyStr) (net1 : Network) (w1 : WriteOk)
    (net2 : Network) (w2 : WriteOk) :
    ∀ items (stA stA' : RunState),
      processAll dir net1 w1 stA items = .ok stA' →
      stA'.failed = stA.failed →
      ∀ stB : RunState,
        (∀ p, (lookupFile stA'.fs p).isSome = true → (lookupFile stB.fs p).isSome = true) →
        ∃ stB', processAll dir net2 w2 stB items = .ok stB' ∧
          stB'.fs = stB.fs ∧ stB'.events = stB.events ∧ stB'.failed = stB.failed ∧
          stB'.successful + stA.successful = stB.successful + stA'.successful ∧
          stB'.skipped + stA.skipped = stB.skipped + stA'.skipped := by
  intro items
  induction items with
  | nil =>
    intro stA stA' h _ stB _
    cases h
    exact ⟨stB, rfl, rfl, rfl, rfl, by omega, by omega⟩
  | cons item rest ih =>
    intro stA stA' h hf stB htrans
    rw [processAll_cons] at h
    cases hpi : processItem dir net1 w1 stA item with
    | error e => rw [hpi] at h; cases h
    | ok stA1 =>
      rw [hpi] at h
      dsimp only at h
      have hfA1 : stA1.failed = stA.failed := by
        have h1 := processItem_failed_mono dir net1 w1 stA item stA1 hpi
        have h2 := processAll_failed_mono dir net1 w1 rest stA1 stA' h
        omega
      rcases processItem_cases dir net1 w1 stA item stA1 hpi with
        ⟨hresolve, hstA1⟩ | ⟨url, fn, hresolve, hex, hstA1⟩ |
          ⟨url, fn, r, hresolve, hnone, hdl, hstA1⟩
      · subst hstA1
        have hpiB : processItem dir net2 w2 stB item =
            .ok { stB with skipped := stB.skipped + 1 } := by
          unfold processItem
          rw [hresolve]
        obtain ⟨stB', hrun, hfs, hev, hfl, hsucc, hskip⟩ :=
          ih { stA with skipped := stA.skipped + 1 } stA' h hf
            { stB with skipped := stB.skipped + 1 } htrans
        refine ⟨stB', ?_, hfs, hev, hfl, ?_, ?_⟩
        · rw [processAll_cons, hpiB]
          exact hrun
        · dsimp only at hsucc
          omega
        · dsimp only at hskip
          omega
      · subst hstA1
        have hpB : (lookupFile stB.fs (pyJoin dir fn)).isSome = true := by
          apply htrans
          exact processAll_fs_mono dir net1 w1 rest _ stA' h _ hex
        have hpiB : processItem dir net2 w2 stB item =
            .ok { stB with successful := stB.successful + 1 } := by
          unfold processItem
          rw [hresolve]
          dsimp only
          rw [if_pos hpB]
        obtain ⟨stB', hrun, hfs, hev, hfl, hsucc, hskip⟩ :=
          ih { stA with successful := stA.successful + 1 } stA' h hf
            { stB with successful := stB.successful + 1 } htrans
        refine ⟨stB', ?_, hfs, hev, hfl, ?_, ?_⟩
        · rw [processAll_cons, hpiB]
          exact hrun
        · dsimp only at hsucc
          omega
        · dsimp only at hskip
          omega
      · subst hstA1
        have hsucc1 : r.success = true := by
          dsimp only at hfA1
          cases hs : r.success with
          | false => rw [hs] at hfA1; simp at hfA1
          | true => rfl
        obtain ⟨c, hwr⟩ : ∃ c, r.written = some c := by
          have hwi := download_go_written net1 w1 url (pyJoin dir fn) 3 3 0 r hdl
          cases hwr : r.written with
          | none => rw [hwr, hsucc1] at hwi; simp at hwi
          | some c => exact ⟨c, rfl⟩
        have hpB : (lookupFile stB.fs (pyJoin dir fn)).isSome = true := by
          apply htrans
          apply processAll_fs_mono dir net1 w1 rest _ stA' h
          dsimp only
          rw [hwr]
          dsimp only
          rw [lookupFile_append_self stA.fs _ c hnone]
          rfl
        have hpiB : processItem dir net2 w2 stB item =
            .ok { stB with successful := stB.successful + 1 } := by
          unfold processItem
          rw [hresolve]
          dsimp only
          rw [if_pos hpB]
        obtain ⟨stB', hrun, hfs, hev, hfl, hsucc, hskip⟩ :=
          ih _ stA' h (by rw [hfA1]; exact hf)
            { stB with successful := stB.successful + 1 } htrans
        refine ⟨stB', ?_, hfs, hev, hfl, ?_, ?_⟩
        · rw [processAll_cons, hpiB]
          exact hrun
        · dsimp only at hsucc
          rw [hsucc1] at hsucc
          simp only [if_true] at hsucc
          omega
        · dsimp only at hskip
          omega

/-- Claim C8, counterexample: against an always-failing server the first
run over `doc1` leaves the file set empty (its one entry fails), so a
second run over the same manifest and output directory repeats the same
computation and performs three network GETs — not the claimed zero. -/
theorem C8_counterexample :
    mainRun [] netAllFail wTrue (some doc1) = .ok (.done ⟨0, 1, 0, 1⟩ [] evFail1) ∧
    countGets evFail1 = 3 ∧ countGets evFail1 ≠ 0 :=
  ⟨rfl, rfl, by decide⟩

/-- Claim C8 (amended): when a run completes with zero failed entries,
re-running the pipeline on the same manifest into the resulting
filesystem — against any network and write oracle — produces no events at
all (zero network fetches), leaves the file set unchanged, and reports the
same successful and skipped tallies with zero failures. -/
theorem C8_idempotent_after_success (fs0 : List (PyStr × List Nat))
    (net1 net2 : Network) (w1 w2 : WriteOk) (doc : JValue)
    (s1 : Summary) (fs1 : List (PyStr × List Nat)) (ev1 : List Event)
    (h : mainRun fs0 net1 w1 (some doc) = .ok (.done s1 fs1 ev1))
    (hfail : s1.failed = 0) :
    mainRun fs1 net2 w2 (some doc) =
      .ok (.done ⟨s1.successful, 0, s1.skipped, s1.total⟩ fs1 []) := by
  rw [mainRun_some] at h
  cases htru : pyTruthy doc with
  | false =>
    rw [htru] at h
    simp at h
  | true =>
    rw [htru] at h
    simp only [Bool.not_true, Bool.false_eq_true, if_false] at h
    cases hgi : getItems doc with
    | error e => rw [hgi] at h; cases h
    | ok items =>
      rw [hgi] at h
      dsimp only at h
      cases hpa : processAll downloadDir net1 w1 ⟨fs0, 0, 0, 0, []⟩ items with
      | error e => rw [hpa] at h; cases h
      | ok stA' =>
        rw [hpa] at h
        cases h
        dsimp only at hfail
        obtain ⟨stB', hrun, hfs, hev, hfl, hsucc, hskip⟩ :=
          processAll_second_run downloadDir net1 w1 net2 w2 items ⟨fs0, 0, 0, 0, []⟩ stA'
            hpa hfail ⟨stA'.fs, 0, 0, 0, []⟩ (fun p hp => hp)
        rw [mainRun_some, htru]
        simp only [Bool.not_true, Bool.false_eq_true, if_false, hgi]
        rw [hrun]
        dsimp only
        have e1 : stB'.successful = stA'.successful := by dsimp only at hsucc; omega
        have e2 : stB'.skipped = stA'.skipped := by dsimp only at hskip; omega
        have e3 : stB'.failed = 0 := by dsimp only at hfl; exact hfl
        have e4 : stB'.fs = stA'.fs := by dsimp only at hfs; exact hfs
        have e5 : stB'.events = [] := by dsimp only at hev; exact hev
        rw [e1, e2, e3, e4, e5]

/-- Witness for C8 (amended): after the fully successful run of `doc1`,
the second run — here against a server that would fail and a filesystem
that would refuse writes — finishes with no events and the same file. -/
theorem C8_witness :
    mainRun [(toL "nft_images/Mint1.png", [7])] netAllFail wFalse (some doc1) =
      .ok (.done ⟨1, 0, 0, 1⟩ [(toL "nft_images/Mint1.png", [7])] []) :=
  C8_idempotent_after_success [] netAllOk7 netAllFail wTrue wFalse doc1
    ⟨1, 0, 0, 1⟩ [(toL "nft_images/Mint1.png", [7])]
    [.get urlA, .write (toL "nft_images/Mint1.png") [7], .sleep (1 / 2)]
    rfl rfl
